import Mathlib

/-!
Shallow embedding of `src/main.ts` (a minimal 2D tile-based platformer:
geometry, tile grid, entities, world, and a fixed-timestep scheduler).
TypeScript numbers are modelled as rationals (`ℚ`); the mutable objects of
the source become immutable structures with explicit state passing, and
`void` methods that mutate `this` become functions returning the updated
value.  Canvas draw calls are reified as a list of `DrawCmd` values.
-/

namespace Platformer

/-- `const MAX_FRAME_TIME = 0.25;` -/
def MAX_FRAME_TIME : ℚ := 0.25

/-- `const DT = 1/60;` -/
def DT : ℚ := 1 / 60

/-- `class Vector { constructor(public x: number, public y: number) {} }` -/
structure Vec where
  x : ℚ
  y : ℚ
deriving DecidableEq, Repr

/-- `Vector.zero = new Vector(0, 0)` -/
def Vec.zero : Vec := ⟨0, 0⟩

/-- `class BoundingBox { constructor(x, y, width, height) }` -/
structure BoundingBox where
  x : ℚ
  y : ℚ
  width : ℚ
  height : ℚ
deriving DecidableEq, Repr

namespace BoundingBox

/-- `setPosition(x, y)`: mutates `this.x`, `this.y` in place. -/
def setPosition (b : BoundingBox) (x y : ℚ) : BoundingBox :=
  { b with x := x, y := y }

/-- `setSize(width, height)`: mutates `this.width`, `this.height` in place. -/
def setSize (b : BoundingBox) (width height : ℚ) : BoundingBox :=
  { b with width := width, height := height }

/-- `right() { return this.x + this.width; }` -/
def right (b : BoundingBox) : ℚ := b.x + b.width

/-- `bottom() { return this.y + this.height; }` -/
def bottom (b : BoundingBox) : ℚ := b.y + b.height

/-- `intersects(other)`:
`!(this.x >= other.right() || this.right() <= other.x ||
   this.y >= other.bottom() || this.bottom() <= other.y)` -/
def intersects (a other : BoundingBox) : Bool :=
  !(decide (a.x ≥ other.right) || decide (a.right ≤ other.x) ||
    decide (a.y ≥ other.bottom) || decide (a.bottom ≤ other.y))

end BoundingBox

/-- Spec-side notion (§4.1): the two axis-aligned closed rectangles overlap
with strictly positive area, i.e. the overlap rectangle
`[max x, min right] × [max y, min bottom]` has positive width and height.
This is written from the spec's words, to be compared against the source's
`BoundingBox.intersects`. -/
def overlapsWithPositiveArea (a b : BoundingBox) : Prop :=
  max a.x b.x < min a.right b.right ∧ max a.y b.y < min a.bottom b.bottom

instance (a b : BoundingBox) : Decidable (overlapsWithPositiveArea a b) := by
  unfold overlapsWithPositiveArea; infer_instance

/-- A reified canvas draw call (the renderer collaborator of §6). -/
inductive DrawCmd where
  | strokeRect (x y width height : ℚ)
  | filledStrokedRect (fillColor strokeColor : String) (x y width height strokeWidth : ℚ)
deriving DecidableEq, Repr

/-- `class Tile` with fields `id, row, col` and derived `x, y`. -/
structure Tile where
  id : ℕ
  row : ℕ
  col : ℕ
  x : ℚ
  y : ℚ
deriving DecidableEq, Repr

namespace Tile

/-- `static size = 24;` -/
def size : ℕ := 24

/-- The `Tile` constructor: `this.x = col * Tile.size; this.y = row * Tile.size;`. -/
def new (id row col : ℕ) : Tile :=
  { id := id, row := row, col := col
    x := (col : ℚ) * (size : ℚ), y := (row : ℚ) * (size : ℚ) }

/-- `render(ctx)`: `if (this.id == 1) { ctx.strokeRect(this.x, this.y, Tile.size, Tile.size); }`
Returns the list of draw calls issued. -/
def render (t : Tile) : List DrawCmd :=
  if t.id == 1 then [DrawCmd.strokeRect t.x t.y (size : ℚ) (size : ℚ)] else []

end Tile

/-- `abstract class Entity` with fields `finished` (private), `colorString`,
`bb`, `velocity`.  The constructor sets `finished = false`. -/
structure Entity where
  colorString : String
  bb : BoundingBox
  velocity : Vec
  finished : Bool
deriving DecidableEq, Repr

namespace Entity

/-- The `Entity` constructor: `this.finished = false;`. -/
def new (colorString : String) (bb : BoundingBox) (velocity : Vec) : Entity :=
  { colorString := colorString, bb := bb, velocity := velocity, finished := false }

/-- `updatePosition(dt)`: `this.bb.x += this.velocity.x * dt; this.bb.y += this.velocity.y * dt;` -/
def updatePosition (e : Entity) (dt : ℚ) : Entity :=
  { e with bb := { e.bb with x := e.bb.x + e.velocity.x * dt
                             y := e.bb.y + e.velocity.y * dt } }

/-- Base `getCollidingEntities()`: `return [];`. -/
def getCollidingEntities (_e : Entity) : List Entity := []

/-- Base `onEntityCollide(sender)`: empty body (no-op on the entity's state). -/
def onEntityCollide (e : Entity) (_sender : Entity) : Entity := e

/-- `handleEvents()`: `this.getCollidingEntities().forEach(e => this.onEntityCollide(e));` -/
def handleEvents (e : Entity) : Entity :=
  e.getCollidingEntities.foldl (fun a s => a.onEntityCollide s) e

/-- `update(dt)`: `this.updatePosition(dt); this.handleEvents();` -/
def update (e : Entity) (dt : ℚ) : Entity :=
  (e.updatePosition dt).handleEvents

/-- `die()`: `this.finished = true;` -/
def die (e : Entity) : Entity := { e with finished := true }

end Entity

/-- `class Game { constructor(public tiles: Tile[][], public entities: Entity[]) }` -/
structure Game where
  tiles : List (List Tile)
  entities : List Entity
deriving DecidableEq, Repr

namespace Game

/-- `Game.update(dt)`: for each entity `e` (in collection order, each entity's
step independent of the others since the base collision hooks are inert):
`e.update(dt); if (e.bb.y > this.tiles.length * Tile.size) { e.die(); }` -/
def update (dt : ℚ) (g : Game) : Game :=
  { g with entities := g.entities.map (fun e =>
      let e2 := e.update dt
      if (g.tiles.length : ℚ) * (Tile.size : ℚ) < e2.bb.y then e2.die else e2) }

/-- `Game.render(ctx)`: tiles row by row, then entities.  Base `Entity.render`
is abstract and no subclass exists in the repository, so entity rendering is
reified as producing no draw calls here; only tiles draw. -/
def render (g : Game) : List DrawCmd :=
  g.tiles.flatMap (fun row => row.flatMap (fun t => t.render))

end Game

/-- Scheduler state: the module-level mutable variables of `src/main.ts`
(`previousTime`, `accumulator`) together with the `game` object threaded
through `loop`. -/
structure LoopState where
  previousTime : ℚ
  accumulator : ℚ
  game : Game
deriving Repr

/-- The clamped frame time computed at the top of `loop`:
`Math.min((currentTime - previousTime) / 1000, MAX_FRAME_TIME)`. -/
def frameTime (currentTime previousTime : ℚ) : ℚ :=
  min ((currentTime - previousTime) / 1000) MAX_FRAME_TIME

/-- The while loop of `loop`:
`while (accumulator >= DT) { accumulator -= DT; game.update(DT); }`.
Returns the number of `game.update` calls performed (a ghost observation),
the final accumulator, and the final game. -/
def runWhile (acc : ℚ) (g : Game) : ℕ × ℚ × Game :=
  if _h : DT ≤ acc then
    let r := runWhile (acc - DT) (Game.update DT g)
    (r.1 + 1, r.2)
  else
    (0, acc, g)
termination_by (⌊acc / DT⌋).toNat
decreasing_by
  have hDT : (0 : ℚ) < DT := by norm_num [DT]
  have h1 : (acc - DT) / DT = acc / DT - 1 := by
    rw [sub_div, div_self (ne_of_gt hDT)]
  have h2 : ⌊(acc - DT) / DT⌋ = ⌊acc / DT⌋ - 1 := by
    rw [h1, Int.floor_sub_one]
  have h3 : (1 : ℤ) ≤ ⌊acc / DT⌋ := by
    rw [Int.le_floor]
    exact_mod_cast (one_le_div hDT).mpr _h
  omega

/-- One trigger of `loop(currentTime, ctx, game)`: compute the clamped frame
time, add it to the accumulator, drain the accumulator in `DT`-sized ticks,
then set `previousTime = currentTime`.  Returns the new scheduler state and
the number of `game.update` calls made (the render happens once, after the
ticks, and does not change state). -/
def loop (currentTime : ℚ) (s : LoopState) : LoopState × ℕ :=
  let ft := frameTime currentTime s.previousTime
  let r := runWhile (s.accumulator + ft) s.game
  ({ previousTime := currentTime, accumulator := r.2.1, game := r.2.2 }, r.1)

/-- The inner `for (let c = 0; ...)` loop of `main`, pushing
`new Tile(map[r][c], r, c)` onto the current row, starting at column `c`. -/
def buildRowFrom (r c : ℕ) : List ℕ → List Tile
  | [] => []
  | id :: rest => Tile.new id r c :: buildRowFrom r (c + 1) rest

/-- The outer `for (let r = 0; ...)` loop of `main`, starting at row `r`.
In the source, `tiles` starts as `[[]]` and each iteration pushes tiles onto
`tiles[r]` — which is always the freshly appended trailing empty row — and
then pushes a new empty row; so the final array is the list of built rows
followed by one trailing empty row. -/
def mainTilesFrom (r : ℕ) : List (List ℕ) → List (List Tile)
  | [] => [[]]
  | row :: rest => buildRowFrom r 0 row :: mainTilesFrom (r + 1) rest

/-- The tile grid `main` builds from a map (the loop over `map` with
`tiles = [[]]` initially). -/
def mainTiles (map : List (List ℕ)) : List (List Tile) :=
  mainTilesFrom 0 map

/-- The hard-coded `map` literal of `main` (42 rows × 25 columns). -/
def gameMap : List (List ℕ) := [
  [1, 1, 1, 1, 1, 1, 1, 1, 1, 1, 1, 1, 1, 1, 1, 1, 1, 1, 1, 1, 1, 1, 1, 1, 1],
  [1, 0, 0, 0, 1, 0, 0, 0, 0, 0, 0, 0, 0, 0, 1, 0, 0, 0, 0, 0, 1, 0, 0, 0, 2],
  [1, 0, 0, 0, 1, 0, 0, 0, 0, 0, 0, 0, 0, 0, 1, 0, 0, 0, 0, 0, 1, 0, 0, 0, 0],
  [1, 0, 1, 0, 0, 0, 0, 0, 0, 0, 0, 0, 0, 0, 0, 0, 0, 0, 1, 0, 1, 0, 0, 0, 0],
  [1, 0, 1, 0, 0, 0, 0, 0, 1, 0, 0, 0, 0, 1, 1, 1, 0, 0, 1, 0, 1, 0, 0, 0, 0],
  [1, 0, 1, 0, 0, 0, 0, 0, 0, 0, 0, 0, 0, 0, 1, 0, 0, 0, 1, 0, 1, 1, 0, 0, 0],
  [1, 0, 1, 0, 0, 0, 0, 0, 0, 0, 0, 0, 0, 0, 1, 0, 0, 0, 1, 0, 1, 0, 0, 0, 0],
  [1, 0, 1, 1, 0, 0, 0, 0, 0, 0, 0, 0, 0, 0, 1, 0, 0, 0, 1, 0, 1, 0, 0, 0, 0],
  [1, 0, 0, 0, 0, 0, 0, 0, 0, 0, 0, 0, 0, 0, 1, 0, 0, 1, 1, 0, 1, 1, 0, 0, 0],
  [1, 0, 0, 1, 1, 0, 0, 0, 0, 0, 0, 0, 0, 0, 1, 0, 0, 0, 1, 0, 1, 0, 0, 0, 0],
  [1, 0, 0, 0, 1, 0, 0, 0, 0, 1, 0, 0, 0, 0, 1, 0, 0, 0, 1, 0, 1, 0, 0, 0, 0],
  [1, 0, 0, 0, 1, 1, 1, 1, 1, 1, 0, 0, 0, 0, 1, 0, 0, 0, 1, 0, 1, 1, 0, 0, 0],
  [1, 0, 0, 0, 0, 0, 0, 0, 0, 0, 0, 0, 0, 1, 1, 1, 0, 0, 1, 0, 1, 0, 0, 0, 0],
  [1, 1, 0, 0, 0, 0, 0, 0, 0, 0, 0, 0, 0, 0, 0, 0, 0, 0, 1, 0, 1, 0, 0, 0, 0],
  [1, 1, 1, 1, 1, 1, 1, 1, 1, 1, 1, 1, 1, 1, 1, 1, 1, 1, 1, 0, 1, 1, 1, 0, 0],
  [1, 0, 0, 0, 0, 0, 0, 0, 0, 0, 0, 0, 0, 0, 0, 0, 0, 0, 0, 0, 0, 0, 1, 0, 0],
  [1, 0, 0, 0, 0, 0, 0, 0, 0, 0, 0, 0, 0, 0, 0, 0, 0, 0, 0, 0, 0, 0, 1, 0, 0],
  [1, 0, 0, 0, 0, 0, 0, 0, 0, 0, 0, 0, 0, 0, 0, 0, 0, 0, 0, 0, 0, 0, 1, 1, 0],
  [1, 0, 0, 0, 0, 0, 0, 0, 0, 0, 0, 0, 0, 0, 0, 0, 0, 0, 0, 0, 0, 0, 0, 0, 0],
  [1, 0, 0, 0, 0, 0, 0, 0, 1, 0, 0, 0, 0, 0, 0, 0, 0, 0, 0, 0, 0, 0, 0, 0, 0],
  [1, 1, 0, 0, 0, 0, 0, 0, 0, 0, 0, 0, 0, 0, 0, 0, 0, 0, 0, 0, 0, 0, 1, 1, 0],
  [1, 0, 0, 0, 0, 0, 0, 0, 0, 0, 0, 0, 0, 0, 0, 1, 0, 0, 0, 0, 0, 0, 1, 0, 0],
  [1, 0, 0, 0, 0, 0, 0, 0, 0, 0, 0, 0, 0, 0, 0, 0, 0, 0, 0, 0, 0, 0, 1, 0, 0],
  [1, 1, 0, 0, 0, 0, 0, 0, 0, 0, 0, 0, 0, 0, 0, 0, 0, 0, 0, 0, 0, 0, 1, 0, 0],
  [1, 0, 0, 0, 0, 0, 0, 0, 0, 0, 0, 0, 0, 0, 0, 0, 0, 0, 0, 0, 0, 0, 1, 0, 0],
  [1, 0, 0, 0, 0, 0, 0, 0, 0, 0, 0, 0, 0, 0, 1, 0, 0, 0, 0, 0, 0, 0, 1, 0, 0],
  [1, 0, 0, 0, 0, 0, 0, 1, 0, 0, 0, 0, 0, 0, 0, 0, 0, 0, 0, 0, 0, 1, 1, 0, 0],
  [0, 0, 0, 0, 0, 0, 0, 0, 0, 0, 0, 0, 0, 0, 0, 0, 0, 0, 0, 0, 0, 0, 0, 0, 0],
  [0, 0, 0, 0, 0, 0, 0, 0, 0, 0, 0, 0, 0, 0, 0, 0, 0, 0, 0, 0, 0, 0, 0, 0, 0],
  [0, 0, 0, 0, 0, 0, 0, 0, 0, 0, 0, 0, 0, 0, 0, 0, 0, 0, 0, 0, 0, 0, 0, 0, 0],
  [0, 0, 0, 0, 0, 0, 0, 0, 0, 0, 0, 0, 0, 0, 0, 0, 0, 0, 0, 0, 0, 0, 0, 0, 0],
  [0, 0, 0, 0, 0, 0, 0, 0, 0, 0, 0, 0, 0, 0, 0, 0, 0, 0, 0, 0, 0, 0, 0, 0, 0],
  [0, 0, 0, 0, 0, 0, 0, 0, 0, 0, 0, 0, 0, 0, 0, 0, 0, 0, 0, 0, 0, 0, 0, 0, 0],
  [0, 0, 0, 0, 0, 0, 0, 0, 0, 0, 0, 0, 0, 0, 0, 0, 0, 0, 0, 0, 0, 0, 0, 0, 0],
  [0, 0, 0, 0, 0, 0, 0, 0, 0, 0, 0, 0, 0, 0, 0, 0, 0, 0, 0, 0, 0, 0, 0, 0, 0],
  [0, 0, 0, 0, 0, 0, 0, 0, 0, 0, 0, 0, 0, 0, 0, 0, 0, 0, 0, 0, 0, 0, 0, 0, 0],
  [0, 0, 0, 0, 0, 0, 0, 0, 0, 0, 0, 0, 0, 0, 0, 0, 0, 0, 0, 0, 0, 0, 0, 0, 0],
  [0, 0, 0, 0, 0, 0, 0, 0, 0, 0, 0, 0, 0, 0, 0, 0, 0, 0, 0, 0, 0, 0, 0, 0, 0],
  [0, 0, 0, 0, 0, 0, 0, 0, 0, 0, 0, 0, 0, 0, 0, 0, 0, 0, 0, 0, 0, 0, 0, 0, 0],
  [0, 0, 0, 0, 0, 0, 0, 0, 0, 0, 0, 0, 0, 0, 0, 0, 0, 0, 0, 0, 0, 0, 0, 0, 0],
  [0, 0, 0, 0, 0, 0, 0, 0, 0, 0, 0, 0, 0, 0, 0, 0, 0, 0, 0, 0, 0, 0, 0, 0, 0],
  [0, 0, 0, 0, 0, 0, 0, 0, 0, 0, 0, 0, 0, 0, 0, 0, 0, 0, 0, 0, 0, 0, 0, 0, 0]]

/-- Concrete test fixture: an empty game (no tiles, no entities). -/
def sampleGame : Game := { tiles := [], entities := [] }

/-- Concrete test fixture: the initial scheduler state
(`previousTime = 0`, `accumulator = 0`). -/
def sampleState : LoopState := { previousTime := 0, accumulator := 0, game := sampleGame }

/-- Concrete test fixture: a live entity at `y = 100` with zero velocity. -/
def sampleEntity : Entity := Entity.new "red" ⟨0, 100, 10, 10⟩ ⟨0, 0⟩

/-- Concrete test fixture: a game with no tile rows and one entity at
`y = 100`, which is past the (empty) grid's bottom. -/
def cullGame : Game := { tiles := [], entities := [sampleEntity] }

/-- Concrete test fixture: `sampleEntity` after `die()`. -/
def deadEntity : Entity := sampleEntity.die

/-- Concrete test fixture: a game holding one already-dead entity. -/
def deadGame : Game := { tiles := [], entities := [deadEntity] }

/-! ## Theorems -/

/-- Characterisation of the source's `intersects` as four strict
inequalities (de Morgan on the negated disjunction of non-strict ones). -/
lemma intersects_iff (a b : BoundingBox) :
    a.intersects b = true ↔
      a.x < b.right ∧ b.x < a.right ∧ a.y < b.bottom ∧ b.y < a.bottom := by
  simp [BoundingBox.intersects, not_or, ge_iff_le, not_le, and_assoc]

/-- The complementary characterisation: `intersects` is `false` iff one of
the four separating non-strict comparisons holds. -/
lemma intersects_eq_false_iff (a b : BoundingBox) :
    a.intersects b = false ↔
      ¬(a.x < b.right ∧ b.x < a.right ∧ a.y < b.bottom ∧ b.y < a.bottom) := by
  rw [← intersects_iff]
  cases a.intersects b <;> simp

/-- C6: `BoundingBox.intersects` is symmetric: for all bounding boxes `a`
and `b`, `a.intersects(b)` equals `b.intersects(a)`. -/
theorem intersects_symm (a b : BoundingBox) : a.intersects b = b.intersects a := by
  rw [Bool.eq_iff_iff, intersects_iff, intersects_iff]
  tauto

/-- Counterexample to C2 as stated for arbitrary boxes: the degenerate box
`{5,5,0,0}` lies strictly inside `{0,0,10,10}`, so `intersects` is true,
yet the overlap has zero area (the box itself has zero width and height). -/
theorem intersects_posArea_cex :
    BoundingBox.intersects ⟨5, 5, 0, 0⟩ ⟨0, 0, 10, 10⟩ = true ∧
    ¬ overlapsWithPositiveArea ⟨5, 5, 0, 0⟩ ⟨0, 0, 10, 10⟩ := by
  constructor
  · rw [intersects_iff]
    norm_num [BoundingBox.right, BoundingBox.bottom]
  · simp only [overlapsWithPositiveArea, max_lt_iff, lt_min_iff,
      BoundingBox.right, BoundingBox.bottom]
    norm_num

/-- C2 (amended): for boxes of strictly positive width and height,
`a.intersects(b)` is true iff the rectangles overlap with strictly positive
area; moreover edge-touching boxes `{0,0,10,10}`, `{10,0,10,10}` do not
intersect while `{0,0,10,10}`, `{9,0,10,10}` do. -/
theorem intersects_iff_posArea (a b : BoundingBox)
    (ha1 : 0 < a.width) (ha2 : 0 < a.height)
    (hb1 : 0 < b.width) (hb2 : 0 < b.height) :
    (a.intersects b = true ↔ overlapsWithPositiveArea a b) ∧
    BoundingBox.intersects ⟨0, 0, 10, 10⟩ ⟨10, 0, 10, 10⟩ = false ∧
    BoundingBox.intersects ⟨0, 0, 10, 10⟩ ⟨9, 0, 10, 10⟩ = true := by
  refine ⟨?_,
    by rw [intersects_eq_false_iff]
       rintro ⟨-, h2, -, -⟩
       norm_num [BoundingBox.right] at h2,
    by rw [intersects_iff]
       norm_num [BoundingBox.right, BoundingBox.bottom]⟩
  have har : a.x < a.right := lt_add_of_pos_right _ ha1
  have hab : a.y < a.bottom := lt_add_of_pos_right _ ha2
  have hbr : b.x < b.right := lt_add_of_pos_right _ hb1
  have hbb : b.y < b.bottom := lt_add_of_pos_right _ hb2
  rw [intersects_iff]
  unfold overlapsWithPositiveArea
  rw [max_lt_iff, max_lt_iff, lt_min_iff, lt_min_iff, lt_min_iff, lt_min_iff]
  constructor
  · rintro ⟨h1, h2, h3, h4⟩
    exact ⟨⟨⟨har, h1⟩, h2, hbr⟩, ⟨hab, h3⟩, h4, hbb⟩
  · rintro ⟨⟨⟨_, h1⟩, h2, _⟩, ⟨_, h3⟩, h4, _⟩
    exact ⟨h1, h2, h3, h4⟩

/-- Witness for `intersects_iff_posArea` at the one-unit-overlap boxes. -/
theorem intersects_iff_posArea_witness :
    ((0 : ℚ) < (BoundingBox.mk 0 0 10 10).width ∧
     (0 : ℚ) < (BoundingBox.mk 0 0 10 10).height ∧
     (0 : ℚ) < (BoundingBox.mk 9 0 10 10).width ∧
     (0 : ℚ) < (BoundingBox.mk 9 0 10 10).height) ∧
    ((BoundingBox.intersects ⟨0, 0, 10, 10⟩ ⟨9, 0, 10, 10⟩ = true ↔
      overlapsWithPositiveArea ⟨0, 0, 10, 10⟩ ⟨9, 0, 10, 10⟩) ∧
     BoundingBox.intersects ⟨0, 0, 10, 10⟩ ⟨10, 0, 10, 10⟩ = false ∧
     BoundingBox.intersects ⟨0, 0, 10, 10⟩ ⟨9, 0, 10, 10⟩ = true) :=
  ⟨⟨by decide, by decide, by decide, by decide⟩,
   intersects_iff_posArea ⟨0, 0, 10, 10⟩ ⟨9, 0, 10, 10⟩
     (by decide) (by decide) (by decide) (by decide)⟩

/-- C7: for the base `Entity`, `update(dt)` is exactly Euler integration of
the position and changes nothing else: `bb.x += velocity.x * dt`,
`bb.y += velocity.y * dt`; width, height, velocity, colorString and the
finished flag are unchanged; the base `getCollidingEntities` returns `[]`,
`onEntityCollide` is a no-op, and hence `handleEvents` has no effect. -/
theorem entity_update_euler (e : Entity) (dt : ℚ) (s : Entity) :
    (e.update dt).bb.x = e.bb.x + e.velocity.x * dt ∧
    (e.update dt).bb.y = e.bb.y + e.velocity.y * dt ∧
    (e.update dt).bb.width = e.bb.width ∧
    (e.update dt).bb.height = e.bb.height ∧
    (e.update dt).velocity = e.velocity ∧
    (e.update dt).colorString = e.colorString ∧
    (e.update dt).finished = e.finished ∧
    e.getCollidingEntities = [] ∧
    e.onEntityCollide s = e ∧
    e.handleEvents = e :=
  ⟨rfl, rfl, rfl, rfl, rfl, rfl, rfl, rfl, rfl, rfl⟩

/-- C9: a tile constructed at row `r`, column `c` has `x = c * 24` and
`y = r * 24` (`Tile.size = 24`; in this embedding tiles are immutable, so
these fields never change after construction), and `render` issues a draw
call iff the tile's id equals 1 — ids 0 and 2 in particular draw nothing. -/
theorem tile_new_spec (id r c : ℕ) :
    (Tile.new id r c).x = (c : ℚ) * 24 ∧
    (Tile.new id r c).y = (r : ℚ) * 24 ∧
    ((Tile.new id r c).render ≠ [] ↔ id = 1) ∧
    (Tile.new 0 r c).render = [] ∧
    (Tile.new 2 r c).render = [] := by
  refine ⟨by norm_num [Tile.new, Tile.size], by norm_num [Tile.new, Tile.size], ?_, rfl, rfl⟩
  by_cases h : id = 1
  · subst h; simp [Tile.render, Tile.new]
  · simp [Tile.render, Tile.new, h]

/-- Counterexample to C10 as stated: starting from the box `{0,0,10,10}`
(which satisfies the invariant), the operation `setSize(-1, 5)` leaves a
negative width, so `setSize` does not preserve the invariant for arbitrary
arguments. -/
theorem setSize_invariant_cex :
    (0 : ℚ) ≤ (BoundingBox.mk 0 0 10 10).width ∧
    (0 : ℚ) ≤ (BoundingBox.mk 0 0 10 10).height ∧
    ((BoundingBox.mk 0 0 10 10).setSize (-1) 5).width < 0 := by
  decide

/-- C10 (amended): `setPosition` and `Entity.updatePosition` always leave
width and height unchanged, hence non-negative when they were; `setSize`
leaves them non-negative provided its arguments are non-negative. -/
theorem bb_nonneg_dims_preserved (b : BoundingBox) (hw : 0 ≤ b.width) (hh : 0 ≤ b.height)
    (x y w h : ℚ) (hw2 : 0 ≤ w) (hh2 : 0 ≤ h) (e : Entity) (dt : ℚ)
    (hew : 0 ≤ e.bb.width) (heh : 0 ≤ e.bb.height) :
    (0 ≤ (b.setPosition x y).width ∧ 0 ≤ (b.setPosition x y).height) ∧
    (0 ≤ (b.setSize w h).width ∧ 0 ≤ (b.setSize w h).height) ∧
    (0 ≤ (e.updatePosition dt).bb.width ∧ 0 ≤ (e.updatePosition dt).bb.height) :=
  ⟨⟨hw, hh⟩, ⟨hw2, hh2⟩, ⟨hew, heh⟩⟩

/-- Witness for `bb_nonneg_dims_preserved` at concrete values. -/
theorem bb_nonneg_dims_preserved_witness :
    ((0 : ℚ) ≤ (BoundingBox.mk 0 0 10 10).width ∧
     (0 : ℚ) ≤ (BoundingBox.mk 0 0 10 10).height ∧
     (0 : ℚ) ≤ (3 : ℚ) ∧ (0 : ℚ) ≤ (4 : ℚ) ∧
     (0 : ℚ) ≤ sampleEntity.bb.width ∧ (0 : ℚ) ≤ sampleEntity.bb.height) ∧
    ((0 ≤ ((BoundingBox.mk 0 0 10 10).setPosition 1 2).width ∧
      0 ≤ ((BoundingBox.mk 0 0 10 10).setPosition 1 2).height) ∧
     (0 ≤ ((BoundingBox.mk 0 0 10 10).setSize 3 4).width ∧
      0 ≤ ((BoundingBox.mk 0 0 10 10).setSize 3 4).height) ∧
     (0 ≤ (sampleEntity.updatePosition 1).bb.width ∧
      0 ≤ (sampleEntity.updatePosition 1).bb.height)) :=
  ⟨⟨by decide, by decide, by decide, by decide, by decide, by decide⟩,
   bb_nonneg_dims_preserved ⟨0, 0, 10, 10⟩ (by decide) (by decide)
     1 2 3 4 (by decide) (by decide) sampleEntity 1 (by decide) (by decide)⟩

/-- Indexing into the entity list after `Game.update`: position `i` holds
the image of the old entity at `i` under the per-entity step of the source
(`update` then conditional `die`). -/
lemma game_update_entities_get? (g : Game) (dt : ℚ) (i : ℕ) :
    (Game.update dt g).entities[i]? = (g.entities[i]?).map (fun e =>
      let e2 := e.update dt
      if (g.tiles.length : ℚ) * (Tile.size : ℚ) < e2.bb.y then e2.die else e2) := by
  simp [Game.update, List.getElem?_map]

/-- C3: after `Game.update(dt)`, the entity at any position `i` whose
bounding-box `y` after its own update exceeds `tiles.length * Tile.size`
has `finished = true`; one whose `y` does not exceed the threshold and was
alive before stays alive; and no entity is removed (the collection keeps
its length). -/
theorem game_update_culling (g : Game) (dt : ℚ) (i : ℕ) (e e2 : Entity)
    (he : g.entities[i]? = some e)
    (he2 : (Game.update dt g).entities[i]? = some e2) :
    (Game.update dt g).entities.length = g.entities.length ∧
    ((g.tiles.length : ℚ) * (Tile.size : ℚ) < (e.update dt).bb.y → e2.finished = true) ∧
    ((e.update dt).bb.y ≤ (g.tiles.length : ℚ) * (Tile.size : ℚ) →
      e.finished = false → e2.finished = false) := by
  have hlen : (Game.update dt g).entities.length = g.entities.length := by
    simp [Game.update]
  have h := game_update_entities_get? g dt i
  rw [he2, he] at h
  simp only [Option.map_some', Option.some.injEq] at h
  subst h
  refine ⟨hlen, ?_, ?_⟩
  · intro hy
    simp only [if_pos hy]
    rfl
  · intro hy hal
    simp only [if_neg (not_lt.mpr hy)]
    exact hal

/-- Witness for `game_update_culling`: a single entity at `y = 100` over an
empty tile grid (threshold `0`) gets culled. -/
theorem game_update_culling_witness :
    cullGame.entities[0]? = some sampleEntity ∧
    (Game.update 1 cullGame).entities[0]? = some ((sampleEntity.update 1).die) ∧
    ((Game.update 1 cullGame).entities.length = cullGame.entities.length ∧
     ((cullGame.tiles.length : ℚ) * (Tile.size : ℚ) < (sampleEntity.update 1).bb.y →
       ((sampleEntity.update 1).die).finished = true) ∧
     ((sampleEntity.update 1).bb.y ≤ (cullGame.tiles.length : ℚ) * (Tile.size : ℚ) →
       sampleEntity.finished = false → ((sampleEntity.update 1).die).finished = false)) := by
  have hy : (cullGame.tiles.length : ℚ) * (Tile.size : ℚ) < (sampleEntity.update 1).bb.y := by
    norm_num [cullGame, sampleEntity, Entity.new, Entity.update, Entity.updatePosition,
      Entity.handleEvents, Entity.getCollidingEntities, Tile.size]
  have h2 : (Game.update 1 cullGame).entities[0]? = some ((sampleEntity.update 1).die) := by
    rw [game_update_entities_get?,
      show cullGame.entities[0]? = some sampleEntity from rfl]
    simp only [Option.map_some']
    rw [if_pos hy]
  exact ⟨rfl, h2, game_update_culling cullGame 1 0 sampleEntity _ rfl h2⟩

/-- C8: the dead state is one-way.  `Entity.update` never changes the
finished flag, `die` sets it to true, and `Game.update` maps a dead entity
at position `i` to a dead entity (both branches of its conditional keep
`finished = true`); neither `die` nor `Game.update` removes entities from
the collection (`die` does not touch the collection at all, and
`Game.update` preserves its length). -/
theorem death_is_one_way (e : Entity) (dt : ℚ) (g : Game) (i : ℕ) (e1 e2 : Entity)
    (he1 : g.entities[i]? = some e1)
    (he2 : (Game.update dt g).entities[i]? = some e2)
    (hdead : e1.finished = true) :
    (e.finished = true → (e.update dt).finished = true) ∧
    e.die.finished = true ∧
    e2.finished = true ∧
    (Game.update dt g).entities.length = g.entities.length := by
  have hlen : (Game.update dt g).entities.length = g.entities.length := by
    simp [Game.update]
  have h := game_update_entities_get? g dt i
  rw [he2, he1] at h
  simp only [Option.map_some', Option.some.injEq] at h
  subst h
  refine ⟨fun hf => hf, rfl, ?_, hlen⟩
  by_cases hy : (g.tiles.length : ℚ) * (Tile.size : ℚ) < (e1.update dt).bb.y
  · simp only [if_pos hy]
    rfl
  · simp only [if_neg hy]
    exact hdead

/-- Witness for `death_is_one_way`: a game holding one already-dead entity. -/
theorem death_is_one_way_witness :
    deadGame.entities[0]? = some deadEntity ∧
    (Game.update 1 deadGame).entities[0]? = some ((deadEntity.update 1).die) ∧
    deadEntity.finished = true ∧
    ((deadEntity.finished = true → (deadEntity.update 1).finished = true) ∧
     deadEntity.die.finished = true ∧
     ((deadEntity.update 1).die).finished = true ∧
     (Game.update 1 deadGame).entities.length = deadGame.entities.length) := by
  have hy : (deadGame.tiles.length : ℚ) * (Tile.size : ℚ) < (deadEntity.update 1).bb.y := by
    norm_num [deadGame, deadEntity, sampleEntity, Entity.new, Entity.die, Entity.update,
      Entity.updatePosition, Entity.handleEvents, Entity.getCollidingEntities, Tile.size]
  have h2 : (Game.update 1 deadGame).entities[0]? = some ((deadEntity.update 1).die) := by
    rw [game_update_entities_get?,
      show deadGame.entities[0]? = some deadEntity from rfl]
    simp only [Option.map_some']
    rw [if_pos hy]
  exact ⟨rfl, h2, rfl, death_is_one_way deadEntity 1 deadGame 0 deadEntity _ rfl h2 rfl⟩

/-- The inner loop builds one tile per map cell, in order. -/
lemma buildRowFrom_length (r c : ℕ) (row : List ℕ) :
    (buildRowFrom r c row).length = row.length := by
  induction row generalizing c with
  | nil => rfl
  | cons a t ih => simp [buildRowFrom, ih]

/-- Cell `j` of a built row is the tile constructed from cell `j` of the map
row, at column `c0 + j`. -/
lemma buildRowFrom_get? (r c0 : ℕ) (row : List ℕ) (j : ℕ) :
    (buildRowFrom r c0 row)[j]? = (row[j]?).map (fun id => Tile.new id r (c0 + j)) := by
  induction row generalizing c0 j with
  | nil => simp [buildRowFrom]
  | cons a t ih =>
    cases j with
    | zero => simp [buildRowFrom]
    | succ j =>
      simp only [buildRowFrom, List.getElem?_cons_succ, ih (c0 + 1) j]
      have : c0 + 1 + j = c0 + (j + 1) := by omega
      rw [this]

/-- The outer loop leaves one row per map row plus the trailing empty row. -/
lemma mainTilesFrom_length (rows : List (List ℕ)) (r0 : ℕ) :
    (mainTilesFrom r0 rows).length = rows.length + 1 := by
  induction rows generalizing r0 with
  | nil => rfl
  | cons a t ih => simp [mainTilesFrom, ih]

/-- Row `i` of the built grid (for `i` a map row index) is the row built
from map row `i` at row coordinate `r0 + i`. -/
lemma mainTilesFrom_get? (rows : List (List ℕ)) (r0 i : ℕ) (h : i < rows.length) :
    (mainTilesFrom r0 rows)[i]? = (rows[i]?).map (fun row => buildRowFrom (r0 + i) 0 row) := by
  induction rows generalizing r0 i with
  | nil => simp at h
  | cons a t ih =>
    cases i with
    | zero => simp [mainTilesFrom]
    | succ i =>
      have h' : i < t.length := by simpa using h
      simp only [mainTilesFrom, List.getElem?_cons_succ, ih (r0 + 1) i h']
      have : r0 + 1 + i = r0 + (i + 1) := by omega
      rw [this]

/-- Position `rows.length` in the built grid — its last position, by
`mainTilesFrom_length` — holds the trailing empty row. -/
lemma mainTilesFrom_get?_last (rows : List (List ℕ)) (r0 : ℕ) :
    (mainTilesFrom r0 rows)[rows.length]? = some [] := by
  induction rows generalizing r0 with
  | nil => rfl
  | cons a t ih => simpa [mainTilesFrom] using ih (r0 + 1)

/-- C4: the grid `main` builds has one extra trailing empty row:
`tiles.length = map.length + 1` with the last element (at index
`map.length`) empty, so the culling threshold `tiles.length * Tile.size`
used by `Game.update` on this grid equals `(map.length + 1) * 24`; and for
every map row `r` and column `c`, `tiles[r][c]` has `id = map[r][c]`,
`row = r`, `col = c`.  For the hard-coded static map (42 rows) the grid has
43 rows. -/
theorem mainTiles_spec (m : List (List ℕ)) (r c : ℕ) (row : List ℕ) (id : ℕ)
    (hr : m[r]? = some row) (hc : row[c]? = some id) :
    (mainTiles m).length = m.length + 1 ∧
    (mainTiles m)[m.length]? = some [] ∧
    ((mainTiles m).length : ℚ) * (Tile.size : ℚ) = ((m.length : ℚ) + 1) * 24 ∧
    (∃ trow t, (mainTiles m)[r]? = some trow ∧ trow[c]? = some t ∧
      t.id = id ∧ t.row = r ∧ t.col = c) ∧
    (mainTiles gameMap).length = 43 ∧ gameMap.length = 42 := by
  have hrlt : r < m.length := by
    by_contra hge
    rw [List.getElem?_eq_none (by omega)] at hr
    exact Option.noConfusion hr
  have hlen : (mainTiles m).length = m.length + 1 := mainTilesFrom_length m 0
  refine ⟨hlen, mainTilesFrom_get?_last m 0, ?_, ?_, ?_, rfl⟩
  · rw [hlen]
    simp only [Tile.size]
    push_cast
    ring
  · refine ⟨buildRowFrom r 0 row, Tile.new id r c, ?_, ?_, rfl, rfl, rfl⟩
    · rw [mainTiles, mainTilesFrom_get? m 0 r hrlt, hr]
      simp
    · rw [buildRowFrom_get? r 0 row c, hc]
      simp
  · rw [mainTiles, mainTilesFrom_length gameMap 0]
    rfl

/-- Witness for `mainTiles_spec` at a small concrete map. -/
theorem mainTiles_spec_witness :
    ([[5], [7, 2]] : List (List ℕ))[1]? = some [7, 2] ∧
    ([7, 2] : List ℕ)[1]? = some 2 ∧
    ((mainTiles [[5], [7, 2]]).length = ([[5], [7, 2]] : List (List ℕ)).length + 1 ∧
     (mainTiles [[5], [7, 2]])[([[5], [7, 2]] : List (List ℕ)).length]? = some [] ∧
     ((mainTiles [[5], [7, 2]]).length : ℚ) * (Tile.size : ℚ) =
       ((([[5], [7, 2]] : List (List ℕ)).length : ℚ) + 1) * 24 ∧
     (∃ trow t, (mainTiles [[5], [7, 2]])[1]? = some trow ∧ trow[1]? = some t ∧
       t.id = 2 ∧ t.row = 1 ∧ t.col = 1) ∧
     (mainTiles gameMap).length = 43 ∧ gameMap.length = 42) :=
  ⟨rfl, rfl, mainTiles_spec [[5], [7, 2]] 1 1 [7, 2] 2 rfl rfl⟩

lemma DT_pos : (0 : ℚ) < DT := by norm_num [DT]

/-- Unfolding of `runWhile` when the guard `accumulator >= DT` holds. -/
lemma runWhile_eq_pos (acc : ℚ) (g : Game) (h : DT ≤ acc) :
    runWhile acc g = ((runWhile (acc - DT) (Game.update DT g)).1 + 1,
                      (runWhile (acc - DT) (Game.update DT g)).2) := by
  rw [runWhile, dif_pos h]

/-- Unfolding of `runWhile` when the guard fails. -/
lemma runWhile_eq_neg (acc : ℚ) (g : Game) (h : ¬ DT ≤ acc) :
    runWhile acc g = (0, acc, g) := by
  rw [runWhile, dif_neg h]

/-- Full specification of the while loop: starting from a non-negative
accumulator it ticks exactly `⌊acc / DT⌋` times, leaves a remainder in
`[0, DT)`, and the final game is the `tick`-fold of `Game.update DT`. -/
lemma runWhile_spec (acc : ℚ) (g : Game) : 0 ≤ acc →
    (runWhile acc g).1 = (⌊acc / DT⌋).toNat ∧
    0 ≤ (runWhile acc g).2.1 ∧ (runWhile acc g).2.1 < DT ∧
    (runWhile acc g).2.2 = (Game.update DT)^[(runWhile acc g).1] g := by
  induction acc, g using runWhile.induct with
  | case1 acc g hge ih =>
    intro _
    have hnn : 0 ≤ acc - DT := sub_nonneg.mpr hge
    obtain ⟨hc, hr1, hr2, hgg⟩ := ih hnn
    have hfloor : ⌊(acc - DT) / DT⌋ = ⌊acc / DT⌋ - 1 := by
      rw [sub_div, div_self (ne_of_gt DT_pos), Int.floor_sub_one]
    have hone : (1 : ℤ) ≤ ⌊acc / DT⌋ := by
      rw [Int.le_floor]
      exact_mod_cast (one_le_div DT_pos).mpr hge
    rw [runWhile_eq_pos acc g hge]
    refine ⟨?_, hr1, hr2, ?_⟩
    · show (runWhile (acc - DT) (Game.update DT g)).1 + 1 = _
      rw [hc, hfloor]
      omega
    · show (runWhile (acc - DT) (Game.update DT g)).2.2 = _
      rw [hgg, ← Function.iterate_succ_apply]
  | case2 acc g hlt =>
    intro hnn
    rw [runWhile_eq_neg acc g hlt]
    have h0 : ⌊acc / DT⌋ = 0 := by
      rw [Int.floor_eq_zero_iff, Set.mem_Ico]
      exact ⟨div_nonneg hnn (le_of_lt DT_pos), (div_lt_one DT_pos).mpr (not_le.mp hlt)⟩
    exact ⟨by rw [h0]; rfl, hnn, not_le.mp hlt, rfl⟩

/-- The while loop only drains the accumulator, never adds to it. -/
lemma runWhile_acc_le (acc : ℚ) (g : Game) : (runWhile acc g).2.1 ≤ acc := by
  induction acc, g using runWhile.induct with
  | case1 acc g hge ih =>
    rw [runWhile_eq_pos acc g hge]
    have hDT := DT_pos
    calc (runWhile (acc - DT) (Game.update DT g)).2.1 ≤ acc - DT := ih
    _ ≤ acc := by linarith
  | case2 acc g hlt =>
    rw [runWhile_eq_neg acc g hlt]

/-- C1: per scheduler trigger, with a non-negative accumulator `A` and a
monotone timestamp, `loop` calls `game.update` exactly
`⌊(A + F) / DT⌋` times where `F` is the clamped frame time — each call with
`dt = DT`, as witnessed by the final game being the iterate of
`Game.update DT` — and the accumulator left behind lies in `[0, DT)`. -/
theorem loop_tick_count (s : LoopState) (t : ℚ)
    (ha : 0 ≤ s.accumulator) (hm : s.previousTime ≤ t) :
    (loop t s).2 = (⌊(s.accumulator + frameTime t s.previousTime) / DT⌋).toNat ∧
    (loop t s).1.game = (Game.update DT)^[(loop t s).2] s.game ∧
    0 ≤ (loop t s).1.accumulator ∧ (loop t s).1.accumulator < DT := by
  have hF : 0 ≤ frameTime t s.previousTime := by
    apply le_min
    · apply div_nonneg _ (by norm_num)
      linarith
    · norm_num [MAX_FRAME_TIME]
  have hacc : 0 ≤ s.accumulator + frameTime t s.previousTime := by linarith
  obtain ⟨hc, hr1, hr2, hg⟩ :=
    runWhile_spec (s.accumulator + frameTime t s.previousTime) s.game hacc
  exact ⟨hc, hg, hr1, hr2⟩

/-- Witness for `loop_tick_count`: the initial state triggered at
`t = 50` ms (frame time `0.05` s, hence three ticks and remainder `0`). -/
theorem loop_tick_count_witness :
    0 ≤ sampleState.accumulator ∧ sampleState.previousTime ≤ 50 ∧
    ((loop 50 sampleState).2 =
       (⌊(sampleState.accumulator + frameTime 50 sampleState.previousTime) / DT⌋).toNat ∧
     (loop 50 sampleState).1.game =
       (Game.update DT)^[(loop 50 sampleState).2] sampleState.game ∧
     0 ≤ (loop 50 sampleState).1.accumulator ∧ (loop 50 sampleState).1.accumulator < DT) :=
  ⟨by norm_num [sampleState], by norm_num [sampleState],
   loop_tick_count sampleState 50 (by norm_num [sampleState]) (by norm_num [sampleState])⟩

/-- C5: the frame time added to the accumulator per trigger is
`min((currentTime - previousTime)/1000, MAX_FRAME_TIME)`, hence never more
than `MAX_FRAME_TIME = 0.25` s — a 10-second timestamp gap still contributes
exactly `0.25` s; on the first invocation `previousTime = 0`, so the first
frame time is `min(timestamp/1000, MAX_FRAME_TIME)`; consequently the
accumulator after one trigger grows by at most `MAX_FRAME_TIME`. -/
theorem frame_time_clamped (t p a : ℚ) (g : Game) :
    frameTime t p ≤ MAX_FRAME_TIME ∧
    MAX_FRAME_TIME = 0.25 ∧
    frameTime (p + 10000) p = MAX_FRAME_TIME ∧
    frameTime t 0 = min (t / 1000) MAX_FRAME_TIME ∧
    (loop t ⟨p, a, g⟩).1.accumulator ≤ a + MAX_FRAME_TIME := by
  refine ⟨min_le_right _ _, rfl, ?_, by rw [frameTime, sub_zero], ?_⟩
  · have h10 : p + 10000 - p = 10000 := by ring
    rw [frameTime, h10, min_eq_right (by norm_num [MAX_FRAME_TIME])]
  · have hle : (loop t ⟨p, a, g⟩).1.accumulator ≤ a + frameTime t p :=
      runWhile_acc_le (a + frameTime t p) g
    have hft : frameTime t p ≤ MAX_FRAME_TIME := min_le_right _ _
    linarith

end Platformer
